import Mathlib

/-!
Verification of the Curator content-enrichment pipeline (src/index.js).

The JavaScript source is shallowly embedded: each async function becomes a
pure Lean function over explicit oracles standing for the external world
(the generative-AI capability, HTTP fetches, the content store).  Waits
(`setTimeout`) are recorded as a list of millisecond durations; outbound
calls are recorded as an effect trace.  `null`/`undefined` become `Option`,
JS objects become structures or partial maps `String → Option MetaVal`.
-/

namespace Curator

/-! ## AI Gateway (`toAiPrompt`, src/index.js lines 78-108)

The Gemini call `model.generateContent` is an external capability; one run
of it either yields text, fails with a rate-limit error (`status === 429`),
or fails with some other error.  The oracle maps the index of the call
(0 for the first request, 1 for the first retry, ...) to its result. -/

inductive AiCallResult where
  | success (text : String)
  | rateLimited
  | otherError
deriving DecidableEq

/-- Result of one `toAiPrompt` invocation: the returned value (`null`
becomes `none`), the list of `setTimeout` waits in milliseconds, in order,
and the number of requests issued to the AI capability. -/
structure AiOutcome where
  result : Option String
  waits : List Nat
  calls : Nat
deriving DecidableEq

/-- `maxRetries` in `toAiPrompt`. -/
def maxRetries : Nat := 3

/-- `baseWaitTime` in `toAiPrompt`: 60000 ms.  It is used both as the
cooldown slept after every successful response (the adjacent log line
says "Waiting 30 seconds", but the sleep is `baseWaitTime`) and as the
base of the exponential retry backoff. -/
def baseWaitTime : Nat := 60000

/-- `toAiPrompt` with explicit fuel.  The JS function recurses with
`retryCount + 1` only under the guard `retryCount < maxRetries`, so from
any starting `retryCount` at most `maxRetries + 1` requests happen; the
fuel is a termination device only and is never exhausted when
`fuel ≥ maxRetries + 1 - retryCount` (see `toAiPromptAux_fuel_irrelevant`). -/
def toAiPromptAux (oracle : Nat → AiCallResult) : Nat → Nat → Nat → AiOutcome
  | 0, _, _ => ⟨none, [], 0⟩
  | fuel + 1, callIdx, retryCount =>
    match oracle callIdx with
    | .success t =>
      -- console.log('Waiting 30 seconds...'); await setTimeout(baseWaitTime)
      ⟨some t, [baseWaitTime], 1⟩
    | .rateLimited =>
      if retryCount < maxRetries then
        let waitTime := baseWaitTime * 2 ^ retryCount
        let rest := toAiPromptAux oracle fuel (callIdx + 1) (retryCount + 1)
        ⟨rest.result, waitTime :: rest.waits, rest.calls + 1⟩
      else
        ⟨none, [], 1⟩
    | .otherError => ⟨none, [], 1⟩

/-- `toAiPrompt(prompt)` as called from `doProcessPost`: first call index 0,
`retryCount = 0`.  Fuel `maxRetries + 1` is enough for the whole retry
ladder. -/
def toAiPrompt (oracle : Nat → AiCallResult) : AiOutcome :=
  toAiPromptAux oracle (maxRetries + 1) 0 0

/-! ## Category & Status Resolver (`doProcessPost`, lines 310-316, 357-367) -/

/-- The fixed `categoryMap` object literal of `doProcessPost`. -/
def categoryMap : String → Option Nat := fun name =>
  if name = "選ぶ" then some 2082
  else if name = "体験する" then some 2083
  else if name = "深掘り" then some 2084
  else if name = "買う" then some 2085
  else if name = "コミュニティ" then some 2086
  else none

/-- `categoryMap[selectedCatName] || categoryMap['深掘り']`: an absent
`selected_category` or an unmatched name falls back to the `深掘り` id
2084 (no map entry is `0`, so JS truthiness agrees with `Option`). -/
def mainCategoryId (selected : Option String) : Nat :=
  (selected.bind categoryMap).getD 2084

/-- The `featured` ("注目ニュース") category id pushed when
`aiData.ai_importance >= 4`. -/
def featuredCategoryId : Nat := 1677

/-- JS `aiData.ai_importance >= 4`: comparison with `undefined` is false. -/
def importanceAtLeast4 : Option Int → Bool
  | some n => 4 ≤ n
  | none => false

/-- `targetCategories`: `[mainCategoryId]`, then `push(1677)` when the
importance threshold is met (lines 362-367). -/
def targetCategories (selected : Option String) (importance : Option Int) :
    List Nat :=
  let mainId := mainCategoryId selected
  if importanceAtLeast4 importance then [mainId, featuredCategoryId]
  else [mainId]

/-! ## Response Parser (`doProcessPost`, lines 343-346)

`aiRawResponse.match(/\x7b[\s\S]*\x7d/)` matches greedily: the match, when
one exists, runs from the first `{` of the text to the last `}` of the
text, and exists exactly when some `}` occurs after the first `{`.
`JSON.parse` (a JS builtin, external to this repository) is abstracted as
a `decode` parameter; `jsonMatch` being `null` makes `jsonMatch[0]` throw,
which the surrounding `catch` turns into the same no-result outcome as a
`JSON.parse` failure. -/

/-- Whether a character is `{`. -/
def isOpenBrace (c : Char) : Bool := c = '\x7b'

/-- Whether a character is `}`. -/
def isCloseBrace (c : Char) : Bool := c = '\x7d'

/-- The substring captured by the greedy regex: from the first `{` to the
last `}`, provided the latter comes after the former. -/
def extractJsonSpan (s : String) : Option String :=
  let cs := s.toList
  match cs.findIdx? isOpenBrace, cs.reverse.findIdx? isCloseBrace with
  | some i, some jr =>
    let j := cs.length - 1 - jr
    if i < j then some (String.mk ((cs.drop i).take (j + 1 - i))) else none
  | _, _ => none

/-- Lines 344-346 as a pipeline: extract the regex span, then decode it
(`JSON.parse` plus field reads, abstracted). -/
def parseAiResponse {α : Type} (decode : String → Option α) (raw : String) :
    Option α :=
  (extractJsonSpan raw).bind decode

/-- Modelled from the spec: "Locates the first balanced JSON-like object
substring within rawText" — scan to the first `{`, then take characters
until the brace nesting returns to zero.  This is the behaviour §4.2
ascribes to the Response Parser; it is compared against `extractJsonSpan`,
the behaviour the source actually has. -/
def balancedFrom : List Char → Nat → Option (List Char)
  | [], _ => none
  | c :: rest, depth =>
    if c = '\x7b' then (balancedFrom rest (depth + 1)).map (c :: ·)
    else if c = '\x7d' then
      if depth = 1 then some [c]
      else (balancedFrom rest (depth - 1)).map (c :: ·)
    else (balancedFrom rest depth).map (c :: ·)

/-- Modelled from the spec: the first balanced object substring of `s`. -/
def firstBalancedObject (s : String) : Option String :=
  let cs := s.toList
  match cs.findIdx? isOpenBrace with
  | none => none
  | some i => (balancedFrom (cs.drop i) 0).map String.mk

/-! ## Data model for `doProcessPost` (lines 300-450)

JS object fields that may be `undefined` become `Option`; the `acf`/`meta`
metadata bag becomes a partial map `String → Option MetaVal` (absent
`post.meta` behaves exactly like an all-`none` bag under both `?.` reads
and object spread). -/

/-- A JS value stored in the metadata bag: the pipeline only ever writes
strings and numbers there. -/
inductive MetaVal where
  | str (s : String)
  | num (n : Int)
deriving DecidableEq

/-- JS truthiness of an optional string (`undefined` and `''` are falsy). -/
def truthyStr : Option String → Bool
  | some s => s ≠ ""
  | none => false

/-- JS truthiness of an optional metadata value. -/
def truthyMeta : Option MetaVal → Bool
  | some (.str s) => s ≠ ""
  | some (.num n) => n ≠ 0
  | none => false

/-- `post.content` (the WordPress content object), itself possibly absent:
line 388 dereferences `post.content.raw` without optional chaining, so its
absence matters. -/
structure ContentObj where
  rendered : Option String
  raw : Option String

/-- The fields of a WordPress post that `doProcessPost` reads. -/
structure Post where
  id : Nat
  content : Option ContentObj
  titleRendered : Option String
  excerptRendered : Option String
  featured_media : Option Int
  meta : String → Option MetaVal

/-- Line 303: `post.content?.rendered || post.content?.raw ||
post.meta?.content_encoded || post.title?.rendered ||
post.excerpt?.rendered || ''` — whether the chain produces a truthy
analysis source (the fallback `''` is falsy, so the guard on line 305
skips exactly when every disjunct is falsy). -/
def hasSourceContent (post : Post) : Bool :=
  truthyStr (post.content.bind (·.rendered)) ||
  truthyStr (post.content.bind (·.raw)) ||
  truthyMeta (post.meta "content_encoded") ||
  truthyStr post.titleRendered ||
  truthyStr post.excerptRendered

/-- The AI fields read out of the decoded JSON object (`aiData`). -/
structure AiData where
  ai_summary : Option String
  ai_summary_points : Option String
  ai_importance : Option Int
  ai_sentiment : Option String
  ai_target_audience : Option String
  ai_tags_suggest : Option (List String ⊕ String)
  selected_category : Option String
  is_beer_related : Option Bool
  content_description : Option String
deriving DecidableEq

/-- Line 426: `Array.isArray(aiData.ai_tags_suggest) ?
aiData.ai_tags_suggest.join(',') : aiData.ai_tags_suggest`. -/
def tagsToMetaVal : Option (List String ⊕ String) → Option MetaVal
  | some (.inl arr) => some (.str (String.intercalate "," arr))
  | some (.inr s) => some (.str s)
  | none => none

/-- Line 384: the image branch runs iff
`!post.featured_media || post.featured_media <= 0`. -/
def needsImage (post : Post) : Bool :=
  match post.featured_media with
  | none => true
  | some m => m ≤ 0

/-! ## Image Resolver (`downloadAndProcessImage`, lines 159-201) -/

/-- Outbound calls recorded while processing one post. -/
inductive Effect where
  | aiCall        -- the analysis round trip through `toAiPrompt`
  | imageExtract  -- the second Gemini call in `extractImageUrlFromContent`
  | download      -- `axios.get(imageUrl)`
  | upload        -- `wpReq('/media', 'POST', formData)`
  | attach        -- `wpReq('/posts/:id', 'POST', \x7bfeatured_media\x7d)`
  | update        -- `wpReq('/posts/:id', 'POST', updateData)`
deriving DecidableEq

/-- The value `downloadAndProcessImage` resolves to. -/
structure ImgResult where
  postId : Nat
  mediaId : Option Nat
  success : Bool
deriving DecidableEq

/-- Oracles for the external world touched while processing one post. -/
structure Oracles where
  /-- Result of the analysis `toAiPrompt` call (`null` = `none`). -/
  aiResp : Option String
  /-- Result of `extractImageUrlFromContent`: the detected image URL, or
  `none` for every failure path inside it (Gemini error, no JSON in the
  reply, `found` falsy or `image_url` falsy). -/
  extractUrl : Option String
  /-- Whether `axios.get(imageUrl, \x7bresponseType, timeout: 30000\x7d)`
  succeeds. -/
  downloadOk : Bool
  /-- `uploadResponse.id` of the `/media` POST; `none` both when the
  request throws and when the response lacks an `id`. -/
  uploadId : Option Nat
  /-- Whether the `featured_media` attachment POST succeeds. -/
  attachOk : Bool
  /-- Whether `updateResponse.id` is present for the final update POST. -/
  updateOk : Bool
  /-- `new Date().toISOString()` at line 371. -/
  nowIso : String
  /-- `new Date(post.meta.pubdate).toISOString()` when the parse yields a
  valid date, `none` when `getTime()` is `NaN`. -/
  parsedPubdate : Option String
  /-- `getJSTDateTime()` used for the `last_processed` metadata key. -/
  nowJst : String

/-- `downloadAndProcessImage(postId, imageUrl)`: download, upload, then
attach; an attachment failure is caught by the inner `catch` and yields
`success: false` while keeping `mediaId`; every earlier failure is caught
by the outer `catch` (or the explicit `uploadResponse.id` check) and
yields `success: false` without a `mediaId`. -/
def downloadAndProcessImage (postId : Nat) (o : Oracles) :
    ImgResult × List Effect :=
  if ¬ o.downloadOk then ((⟨postId, none, false⟩ : ImgResult), [Effect.download])
  else
    match o.uploadId with
    | none => ((⟨postId, none, false⟩ : ImgResult), [Effect.download, Effect.upload])
    | some mid =>
      if o.attachOk then
        ((⟨postId, some mid, true⟩ : ImgResult),
          [Effect.download, Effect.upload, Effect.attach])
      else
        ((⟨postId, some mid, false⟩ : ImgResult),
          [Effect.download, Effect.upload, Effect.attach])

/-! ## Update payload assembly (lines 370-431) -/

/-- The seven metadata keys written by the `acf` object literal. -/
def overwrittenAcfKeys : List String :=
  ["last_processed", "ai_summary_points", "ai_importance", "ai_sentiment",
   "ai_target_audience", "ai_tags_suggest", "content_description"]

/-- Lines 419-428: `acf: \x7b ...post.meta, last_processed: ...,
ai_summary_points: ..., ... \x7d` — the spread copies every prior key,
then the seven literal keys overwrite. -/
def updateAcf (meta : String → Option MetaVal) (aiData : AiData)
    (nowJst : String) : String → Option MetaVal := fun k =>
  if k = "last_processed" then some (.str nowJst)
  else if k = "ai_summary_points" then (aiData.ai_summary_points).map .str
  else if k = "ai_importance" then (aiData.ai_importance).map .num
  else if k = "ai_sentiment" then (aiData.ai_sentiment).map .str
  else if k = "ai_target_audience" then (aiData.ai_target_audience).map .str
  else if k = "ai_tags_suggest" then tagsToMetaVal aiData.ai_tags_suggest
  else if k = "content_description" then (aiData.content_description).map .str
  else meta k

/-- Lines 371-381: `updateDate` prefers a valid parsed `post.meta.pubdate`
over `new Date().toISOString()`; the `pubdate` read is guarded by JS
truthiness. -/
def updateDate (post : Post) (o : Oracles) : String :=
  if truthyMeta (post.meta "pubdate") then
    match o.parsedPubdate with
    | some iso => iso
    | none => o.nowIso
  else o.nowIso

/-- The `updateData` record of lines 415-431 (the rendered HTML body from
`generatePostContent` is deterministic templating no claim touches and is
left out of the payload model). -/
structure UpdatePayload where
  categories : List Nat
  date : String
  acf : String → Option MetaVal
  excerpt : Option String
  status : String

/-- Terminal outcome of `doProcessPost` for one post. -/
inductive Outcome where
  /-- Line 305-308: no analysable content, return before any call. -/
  | skippedNoContent
  /-- Line 341: `toAiPrompt` returned `null`. -/
  | aiFailed
  /-- Lines 344-346 threw (no regex match or `JSON.parse` failure),
  caught at line 447. -/
  | parseError
  /-- Lines 352-355: `is_beer_related === false`. -/
  | skippedIrrelevant
  /-- Line 388 threw: `post.content.raw` with `post.content` undefined,
  caught at line 447. -/
  | imageContentError
  /-- The update POST ran; the payload and whether `updateResponse.id`
  was present. -/
  | submitted (payload : UpdatePayload) (ok : Bool)

/-- `doProcessPost(post)` as a pure function of the oracles.  `decode`
abstracts `JSON.parse` applied to the regex-extracted span together with
the subsequent field reads. -/
def doProcessPost (decode : String → Option AiData) (post : Post)
    (o : Oracles) : Outcome × List Effect :=
  if ¬ hasSourceContent post then (Outcome.skippedNoContent, [])
  else
    match o.aiResp with
    | none => (Outcome.aiFailed, [Effect.aiCall])
    | some raw =>
      match parseAiResponse decode raw with
      | none => (Outcome.parseError, [Effect.aiCall])
      | some aiData =>
        if aiData.is_beer_related = some false then
          (Outcome.skippedIrrelevant, [Effect.aiCall])
        else
          let cats := targetCategories aiData.selected_category
            aiData.ai_importance
          if needsImage post then
            match post.content with
            | none => (Outcome.imageContentError, [Effect.aiCall])
            | some _ =>
              let img : String × List Effect :=
                match o.extractUrl with
                | none => ("draft", [Effect.imageExtract])
                | some _ =>
                  (if (downloadAndProcessImage post.id o).1.success
                    then "publish" else "draft",
                    Effect.imageExtract :: (downloadAndProcessImage post.id o).2)
              let payload : UpdatePayload :=
                { categories := cats
                  date := updateDate post o
                  acf := updateAcf post.meta aiData o.nowJst
                  excerpt := aiData.content_description
                  status := img.1 }
              (Outcome.submitted payload o.updateOk,
                Effect.aiCall :: img.2 ++ [Effect.update])
          else
            let payload : UpdatePayload :=
              { categories := cats
                date := updateDate post o
                acf := updateAcf post.meta aiData o.nowJst
                excerpt := aiData.content_description
                status := "publish" }
            (Outcome.submitted payload o.updateOk,
              [Effect.aiCall, Effect.update])

/-- The final `status` field sent in the update, when an update was sent. -/
def outcomeStatus : Outcome → Option String
  | .submitted p _ => some p.status
  | _ => none

/-! ## Import/Poll Coordinator (`handleImport`, lines 453-526)

Each progress poll (`fetch(baseUrl + '&action=processing')`) is abstracted
by what the body gives after the code's own parsing attempts:
* `httpFail` — `!progressResponse.ok`, or the fetch / `.text()` threw
  (both paths only log and fall through to the wait);
* `jsonResp status message` — `JSON.parse(progressText)` succeeded;
* `textResp n?` — `JSON.parse` threw and `/(\d+)/` found (or not) a first
  number in the text. -/

inductive PollResp where
  | httpFail
  | jsonResp (status : Int) (message : Option String)
  | textResp (firstNum : Option Nat)

/-- Naive substring test used to model `message.includes('complete')`. -/
def listStartsWith : List Char → List Char → Bool
  | [], _ => true
  | _ :: _, [] => false
  | a :: as, b :: bs => a = b && listStartsWith as bs

def listContainsSub (needle : List Char) : List Char → Bool
  | [] => needle.isEmpty
  | c :: rest => listStartsWith needle (c :: rest) || listContainsSub needle rest

/-- `progressData.status === 200 && progressData.message &&
progressData.message.includes('complete')`. -/
def jsonPollComplete (status : Int) (message : Option String) : Bool :=
  match message with
  | none => false
  | some m => status = 200 && m ≠ "" && listContainsSub "complete".toList m.toList

/-- The `while (remainingCount !== 0 && attempts < maxAttempts)` loop of
lines 473-514, returning the number of polls performed and the list of
60000 ms waits slept between them.  `polls k` is the result of poll
number `k + 1`.  The structural `fuel` only bounds the recursion; the
loop itself still stops via its own `attempts < 30` guard, and
`handleImport` passes fuel 30 ≥ the 30 iterations the guard allows. -/
def pollLoop (polls : Nat → PollResp) :
    Nat → Int → Nat → Nat × List Nat
  | 0, _, attempts => (attempts, [])
  | fuel + 1, remaining, attempts =>
    if remaining ≠ 0 ∧ attempts < 30 then
      -- attempts++ then one poll
      let stepRemaining : Option Int :=
        match polls attempts with
        | .httpFail => some remaining
        | .jsonResp status message =>
          if jsonPollComplete status message then none else some remaining
        | .textResp (some n) => if n = 0 then none else some (n : Int)
        | .textResp none => some remaining
      match stepRemaining with
      | none => (attempts + 1, [])   -- break out of the loop
      | some r =>
        if r ≠ 0 ∧ attempts + 1 < 30 then
          let (m, ws) := pollLoop polls fuel r (attempts + 1)
          (m, 60000 :: ws)
        else (attempts + 1, [])
    else (attempts, [])

/-- `handleImport(baseUrl)`: `false` immediately when the trigger request
is not `ok` (or threw); otherwise poll up to 30 times and return `true`
regardless of how the loop ended (exceeding `maxAttempts` only logs a
warning).  Returns (result, number of polls, waits in ms). -/
def handleImport (triggerOk : Bool) (polls : Nat → PollResp) :
    Bool × Nat × List Nat :=
  if ¬ triggerOk then (false, 0, [])
  else
    let (n, ws) := pollLoop polls 30 (-1) 0
    (true, n, ws)

/-! ## Concrete fixtures for witnesses and counterexamples -/

/-- A raw AI reply whose body is exactly one JSON object. -/
def testRaw : String := "\x7b\"ai_importance\":5\x7d"

/-- A fully-populated decoded analysis record. -/
def testAiData : AiData :=
  { ai_summary := some "ビール関連の要約"
    ai_summary_points := some "<ul><li>p1</li></ul>"
    ai_importance := some 5
    ai_sentiment := some "positive"
    ai_target_audience := some "愛好家"
    ai_tags_suggest := some (.inl ["beer", "news"])
    selected_category := some "深掘り"
    is_beer_related := some true
    content_description := some "説明文" }

/-- `testAiData` with the relevance flag false. -/
def irrAiData : AiData := { testAiData with is_beer_related := some false }

/-- A decoder that decodes exactly `testRaw` to the given record, standing
in for `JSON.parse` on that input. -/
def testDecode (d : AiData) : String → Option AiData := fun s =>
  if s = testRaw then some d else none

/-- A prior metadata bag carrying keys the enrichment does not overwrite. -/
def testMeta : String → Option MetaVal := fun k =>
  if k = "pubdate" then some (.str "2025-01-01")
  else if k = "source_name" then some (.str "Example Feed")
  else none

/-- A pending post with analysable content and no cover image. -/
def testPost : Post :=
  { id := 42
    content := some { rendered := some "<p>記事本文</p>", raw := some "<p>raw</p>" }
    titleRendered := some "タイトル"
    excerptRendered := none
    featured_media := some 0
    meta := testMeta }

/-- A post every source-content accessor of which is absent or empty. -/
def emptyPost : Post :=
  { id := 7
    content := some { rendered := none, raw := some "" }
    titleRendered := some ""
    excerptRendered := none
    featured_media := none
    meta := fun k => if k = "content_encoded" then some (.str "") else none }

/-- Oracles for the attachment-failure scenario: image URL found, download
and upload succeed (media id 77), but the `featured_media` write fails;
the final update succeeds. -/
def cexOracles : Oracles :=
  { aiResp := some testRaw
    extractUrl := some "https://example.com/img.jpg"
    downloadOk := true
    uploadId := some 77
    attachOk := false
    updateOk := true
    nowIso := "2025-06-01T00:00:00.000Z"
    parsedPubdate := some "2025-01-01T00:00:00.000Z"
    nowJst := "2025-06-01T09:00:00.000+09:00" }

/-- The exact payload `doProcessPost` submits for `testPost` under
`cexOracles` and `testAiData`. -/
def cexPayload : UpdatePayload :=
  { categories := targetCategories testAiData.selected_category
      testAiData.ai_importance
    date := updateDate testPost cexOracles
    acf := updateAcf testPost.meta testAiData cexOracles.nowJst
    excerpt := testAiData.content_description
    status := "draft" }

/-- The input on which the greedy regex span and the first balanced object
differ: prose holding two separate JSON objects. -/
def wrappedTwoObjects : String := "\x7b\"a\":1\x7d x \x7b\"b\":2\x7d"

/-! ## Helper lemmas -/

theorem toAiPromptAux_fuel_irrelevant (oracle : Nat → AiCallResult) :
    ∀ fuel fuel' callIdx retryCount,
      maxRetries - retryCount < fuel →
      maxRetries - retryCount < fuel' →
      toAiPromptAux oracle fuel callIdx retryCount =
        toAiPromptAux oracle fuel' callIdx retryCount := by
  intro fuel
  induction fuel with
  | zero =>
    intro fuel' callIdx retryCount h _
    omega
  | succ f ih =>
    intro fuel' callIdx retryCount h h'
    cases fuel' with
    | zero => omega
    | succ f' =>
      simp only [toAiPromptAux]
      cases oracle callIdx with
      | success t => rfl
      | rateLimited =>
        by_cases hr : retryCount < maxRetries
        · simp only [hr, if_true]
          rw [ih f' (callIdx + 1) (retryCount + 1) (by omega) (by omega)]
        · simp [hr]
      | otherError => rfl

theorem toAiPromptAux_calls_le (oracle : Nat → AiCallResult) :
    ∀ fuel callIdx retryCount,
      (toAiPromptAux oracle fuel callIdx retryCount).calls ≤ fuel := by
  intro fuel
  induction fuel with
  | zero => intro callIdx retryCount; simp [toAiPromptAux]
  | succ f ih =>
    intro callIdx retryCount
    simp only [toAiPromptAux]
    cases oracle callIdx with
    | success t => simp
    | rateLimited =>
      by_cases hr : retryCount < maxRetries
      · simp only [hr, if_true]
        have := ih (callIdx + 1) (retryCount + 1)
        omega
      · simp [hr]
    | otherError => simp

theorem mainCategoryId_mem (selected : Option String) :
    mainCategoryId selected ∈ ([2082, 2083, 2084, 2085, 2086] : List Nat) := by
  cases selected with
  | none => simp [mainCategoryId]
  | some name =>
    have hrw : mainCategoryId (some name) = (categoryMap name).getD 2084 := rfl
    rw [hrw]
    unfold categoryMap
    split_ifs <;> simp

theorem mainCategoryId_ne_featured (selected : Option String) :
    mainCategoryId selected ≠ featuredCategoryId := by
  intro hc
  have h := mainCategoryId_mem selected
  rw [hc] at h
  exact absurd h (by decide)

theorem findIdx?_append_none {p : Char → Bool} (l₁ l₂ : List Char)
    (h : l₁.findIdx? p = none) :
    (l₁ ++ l₂).findIdx? p = (l₂.findIdx? p).map (· + l₁.length) := by
  induction l₁ with
  | nil =>
    cases hcs : l₂.findIdx? p with
    | none => simpa using hcs
    | some v => simpa using hcs
  | cons c cs ih =>
    rw [List.findIdx?_cons, List.findIdx?_succ] at h
    by_cases hc : p c
    · simp [hc] at h
    · simp only [hc, if_false] at h
      have h0 : cs.findIdx? p = none := by
        cases hcs : cs.findIdx? p with
        | none => rfl
        | some v => rw [hcs] at h; simp at h
      rw [List.cons_append, List.findIdx?_cons, List.findIdx?_succ, ih h0]
      simp only [hc, if_false]
      cases l₂.findIdx? p with
      | none => rfl
      | some v => simp [List.length_cons]; omega

theorem findIdx?_of_all_not {p : Char → Bool} (l : List Char)
    (h : ∀ c ∈ l, ¬ p c) : l.findIdx? p = none :=
  List.findIdx?_eq_none_iff.2 (fun x hx => by
    have := h x hx
    revert this
    cases p x <;> simp)

theorem findIdx?_cons_true {p : Char → Bool} (c : Char) (l : List Char)
    (h : p c) : (c :: l).findIdx? p = some 0 := by
  rw [List.findIdx?_cons]
  simp [h]

/-- Unfolding of `extractJsonSpan` at known brace indices. -/
theorem extractJsonSpan_eq (s : String) (i jr : Nat)
    (h1 : s.toList.findIdx? isOpenBrace = some i)
    (h2 : s.toList.reverse.findIdx? isCloseBrace = some jr)
    (hij : i < s.toList.length - 1 - jr) :
    extractJsonSpan s =
      some (String.mk
        ((s.toList.drop i).take (s.toList.length - 1 - jr + 1 - i))) := by
  unfold extractJsonSpan
  simp only [h1, h2, hij, if_true]

/-- The greedy span extraction on brace-free prose wrapping one
brace-delimited object returns exactly that object. -/
theorem extractJsonSpan_wrapped (p mid q : List Char)
    (hp : ∀ c ∈ p, isOpenBrace c = false ∧ isCloseBrace c = false)
    (hq : ∀ c ∈ q, isOpenBrace c = false ∧ isCloseBrace c = false) :
    extractJsonSpan (String.mk (p ++ '\x7b' :: (mid ++ '\x7d' :: q))) =
      some (String.mk ('\x7b' :: (mid ++ ['\x7d']))) := by
  have hopen : isOpenBrace '\x7b' = true := by decide
  have hclose : isCloseBrace '\x7d' = true := by decide
  have hlist : (String.mk (p ++ '\x7b' :: (mid ++ '\x7d' :: q))).toList =
      p ++ '\x7b' :: (mid ++ '\x7d' :: q) := rfl
  have hpnone : p.findIdx? isOpenBrace = none :=
    findIdx?_of_all_not p (fun c hc => by simp [(hp c hc).1])
  have h1 : (p ++ '\x7b' :: (mid ++ '\x7d' :: q)).findIdx? isOpenBrace =
      some p.length := by
    rw [findIdx?_append_none p _ hpnone, findIdx?_cons_true _ _ hopen]
    simp
  have hrev : (p ++ '\x7b' :: (mid ++ '\x7d' :: q)).reverse =
      q.reverse ++ '\x7d' :: (mid.reverse ++ '\x7b' :: p.reverse) := by
    simp [List.reverse_append, List.reverse_cons, List.append_assoc]
  have hqnone : q.reverse.findIdx? isCloseBrace = none :=
    findIdx?_of_all_not q.reverse (fun c hc => by
      simp [(hq c (List.mem_reverse.mp hc)).2])
  have h2 : (p ++ '\x7b' :: (mid ++ '\x7d' :: q)).reverse.findIdx?
      isCloseBrace = some q.length := by
    rw [hrev, findIdx?_append_none q.reverse _ hqnone,
      findIdx?_cons_true _ _ hclose]
    simp
  have hlen : (p ++ '\x7b' :: (mid ++ '\x7d' :: q)).length =
      p.length + (mid.length + 2) + q.length := by
    simp
    omega
  have hij : p.length <
      (String.mk (p ++ '\x7b' :: (mid ++ '\x7d' :: q))).toList.length - 1 -
        q.length := by
    rw [hlist, hlen]; omega
  rw [extractJsonSpan_eq _ p.length q.length (by rw [hlist]; exact h1)
    (by rw [hlist]; exact h2) hij]
  congr 1
  rw [hlist, hlen]
  have hdrop : (p ++ '\x7b' :: (mid ++ '\x7d' :: q)).drop p.length =
      '\x7b' :: (mid ++ '\x7d' :: q) :=
    List.drop_left p ('\x7b' :: (mid ++ '\x7d' :: q))
  rw [hdrop]
  have htake : p.length + (mid.length + 2) + q.length - 1 - q.length + 1 -
      p.length = mid.length + 2 := by omega
  rw [htake]
  have hsplit : '\x7b' :: (mid ++ '\x7d' :: q) =
      ('\x7b' :: (mid ++ ['\x7d'])) ++ q := by simp
  rw [hsplit]
  have hlen2 : mid.length + 2 = ('\x7b' :: (mid ++ ['\x7d'])).length := by
    simp
  rw [hlen2, List.take_left]

/-- Every `submitted` outcome carries the `acf` bag built by `updateAcf`
over the post's prior metadata. -/
theorem submitted_acf_eq (decode : String → Option AiData) (post : Post)
    (o : Oracles) (payload : UpdatePayload) (ok : Bool)
    (hsub : (doProcessPost decode post o).1 = Outcome.submitted payload ok) :
    ∃ aiData, payload.acf = updateAcf post.meta aiData o.nowJst := by
  unfold doProcessPost at hsub
  by_cases hsc : hasSourceContent post = true
  · simp only [hsc, not_true, if_false] at hsub
    cases hai : o.aiResp with
    | none => rw [hai] at hsub; simp at hsub
    | some raw =>
      rw [hai] at hsub
      simp only [] at hsub
      cases hparse : parseAiResponse decode raw with
      | none => rw [hparse] at hsub; simp at hsub
      | some aiData =>
        rw [hparse] at hsub
        by_cases hrel : aiData.is_beer_related = some false
        · simp only [hrel, if_true] at hsub
          simp at hsub
        · simp only [if_neg hrel] at hsub
          by_cases him : needsImage post = true
          · simp only [him, if_true] at hsub
            cases hco : post.content with
            | none => rw [hco] at hsub; simp at hsub
            | some c =>
              rw [hco] at hsub
              refine ⟨aiData, ?_⟩
              have := (Outcome.submitted.injEq _ _ _ _).mp hsub.symm
              rw [this.1]
          · simp only [him, if_false] at hsub
            refine ⟨aiData, ?_⟩
            have := (Outcome.submitted.injEq _ _ _ _).mp hsub.symm
            rw [this.1]
  · simp [hsc] at hsub

/-- `updateAcf` leaves every key outside the seven overwritten ones at its
prior value. -/
theorem updateAcf_preserves (meta : String → Option MetaVal)
    (aiData : AiData) (nowJst : String) (k : String)
    (hk : k ∉ overwrittenAcfKeys) :
    updateAcf meta aiData nowJst k = meta k := by
  simp only [overwrittenAcfKeys, List.mem_cons, List.not_mem_nil, or_false,
    not_or] at hk
  obtain ⟨h1, h2, h3, h4, h5, h6, h7⟩ := hk
  simp [updateAcf, h1, h2, h3, h4, h5, h6, h7]

/-! ## Claim theorems -/

/-- C2: the AI Gateway does sleep after every successful response,
unconditionally (even when no further call follows, and also right after a
rate-limit retry) — but the sleep is `baseWaitTime` = 60000 ms, not the
30 seconds the adjacent log line and the spec state. -/
theorem success_cooldown_is_60000ms :
    toAiPrompt (fun _ => .success "ok") = ⟨some "ok", [baseWaitTime], 1⟩ ∧
    toAiPromptAux (fun i => if i = 0 then .rateLimited else .success "ok")
      (3 + 1) 0 0 = ⟨some "ok", [60000, baseWaitTime], 2⟩ ∧
    baseWaitTime = 60000 ∧ baseWaitTime ≠ 30000 := by
  exact ⟨rfl, rfl, rfl, by decide⟩

/-- C3: rate-limit failures retry at most 3 times with waits 60 s, 120 s,
240 s and the Gateway gives up (returns `null`) after exhausting them; a
non-rate-limit failure returns immediately with no retry and no wait; no
invocation ever issues more than 4 requests. -/
theorem toAiPrompt_retry_policy :
    toAiPrompt (fun _ => .rateLimited) =
      ⟨none, [60000, 120000, 240000], 4⟩ ∧
    (∀ (oracle : Nat → AiCallResult) (fuel callIdx retryCount : Nat),
      oracle callIdx = .otherError →
      toAiPromptAux oracle (fuel + 1) callIdx retryCount = ⟨none, [], 1⟩) ∧
    (∀ oracle : Nat → AiCallResult, (toAiPrompt oracle).calls ≤ 4) := by
  refine ⟨rfl, ?_, ?_⟩
  · intro oracle fuel callIdx retryCount h
    simp [toAiPromptAux, h]
  · intro oracle
    exact toAiPromptAux_calls_le oracle (maxRetries + 1) 0 0

/-- Witness for C3: a non-rate-limit failure on the first request returns
`null` with no retry and no wait. -/
theorem toAiPrompt_retry_policy_witness :
    toAiPromptAux (fun _ => .otherError) (3 + 1) 0 0 = ⟨none, [], 1⟩ :=
  toAiPrompt_retry_policy.2.1 (fun _ => .otherError) 3 0 0 rfl

/-- C4 counterexample: on prose holding two JSON objects the code's greedy
regex span runs from the first `\x7b` to the last `\x7d` — the whole
input — while the first balanced object substring is just the first
object; the parser therefore does not locate the first balanced object. -/
theorem greedy_span_not_first_balanced_cex :
    extractJsonSpan wrappedTwoObjects = some wrappedTwoObjects ∧
    firstBalancedObject wrappedTwoObjects = some "\x7b\"a\":1\x7d" ∧
    extractJsonSpan wrappedTwoObjects ≠ firstBalancedObject wrappedTwoObjects :=
  ⟨rfl, rfl, by decide⟩

/-- C4 (amended): the Response Parser extracts the span from the first
`\x7b` to the last `\x7d` of the raw text and decodes that; when
brace-free prose wraps a single brace-delimited object the extracted span
is exactly that object, and the parse fails precisely when no span exists
or decoding the span fails. -/
theorem parseAiResponse_greedy_extraction :
    (∀ p mid q : List Char,
      (∀ c ∈ p, isOpenBrace c = false ∧ isCloseBrace c = false) →
      (∀ c ∈ q, isOpenBrace c = false ∧ isCloseBrace c = false) →
      extractJsonSpan (String.mk (p ++ '\x7b' :: (mid ++ '\x7d' :: q))) =
        some (String.mk ('\x7b' :: (mid ++ ['\x7d'])))) ∧
    (∀ (decode : String → Option AiData) (raw : String),
      parseAiResponse decode raw = none ↔
        extractJsonSpan raw = none ∨
          ∃ s, extractJsonSpan raw = some s ∧ decode s = none) := by
  constructor
  · exact extractJsonSpan_wrapped
  · intro decode raw
    unfold parseAiResponse
    cases h : extractJsonSpan raw with
    | none => simp [h]
    | some s => simp [h]

/-- Witness for C4 (amended): brace-free prose around one object. -/
theorem parseAiResponse_greedy_extraction_witness :
    extractJsonSpan (String.mk (" prose ".toList ++ '\x7b' ::
      ("\"k\":1".toList ++ '\x7d' :: " tail ".toList))) =
      some (String.mk ('\x7b' :: ("\"k\":1".toList ++ ['\x7d']))) :=
  parseAiResponse_greedy_extraction.1 " prose ".toList "\"k\":1".toList
    " tail ".toList (by decide) (by decide)

/-- C5: the category resolver is total — every input lands in the fixed
five-entry table, unmatched names and an absent name both fall back to the
default id 2084, and no error value exists. -/
theorem category_resolver_total (selected : Option String) (name : String)
    (hmiss : categoryMap name = none) :
    mainCategoryId selected ∈ ([2082, 2083, 2084, 2085, 2086] : List Nat) ∧
    mainCategoryId (some name) = 2084 ∧
    mainCategoryId none = 2084 :=
  ⟨mainCategoryId_mem selected, by simp [mainCategoryId, hmiss], rfl⟩

/-- Witness for C5 at a matched and an unmatched category name. -/
theorem category_resolver_total_witness :
    mainCategoryId (some "体験する") ∈
      ([2082, 2083, 2084, 2085, 2086] : List Nat) ∧
    mainCategoryId (some "謎のカテゴリ") = 2084 ∧
    mainCategoryId none = 2084 :=
  category_resolver_total (some "体験する") "謎のカテゴリ" (by decide)

/-- C6: the featured category id 1677 is in the category assignment iff
the importance value is at least 4. -/
theorem featured_iff_importance_ge4 (selected : Option String)
    (importance : Option Int) (n : Int) (him : importance = some n) :
    (n < 4 → featuredCategoryId ∉ targetCategories selected importance) ∧
    (4 ≤ n → featuredCategoryId ∈ targetCategories selected importance) := by
  subst him
  constructor
  · intro hlt hmem
    have hb : importanceAtLeast4 (some n) = false := by
      simp [importanceAtLeast4]; omega
    simp only [targetCategories, hb, Bool.false_eq_true, if_false,
      List.mem_singleton] at hmem
    exact mainCategoryId_ne_featured selected hmem.symm
  · intro hge
    have hb : importanceAtLeast4 (some n) = true := by
      simp [importanceAtLeast4, hge]
    simp [targetCategories, hb]

/-- Witness for C6 at importances 2 and 5. -/
theorem featured_iff_importance_ge4_witness :
    featuredCategoryId ∉ targetCategories (some "買う") (some 2) ∧
    featuredCategoryId ∈ targetCategories (some "買う") (some 5) :=
  ⟨(featured_iff_importance_ge4 (some "買う") (some 2) 2 rfl).1 (by decide),
    (featured_iff_importance_ge4 (some "買う") (some 5) 5 rfl).2 (by decide)⟩

/-- C7: when the decoded analysis has `is_beer_related === false` the post
is skipped right after the analysis call: the effect trace holds only the
AI call — no image extraction, download, upload, attachment, or update. -/
theorem irrelevant_yields_skip_no_writeback (decode : String → Option AiData)
    (post : Post) (o : Oracles) (raw : String) (aiData : AiData)
    (hsc : hasSourceContent post = true)
    (hresp : o.aiResp = some raw)
    (hparse : parseAiResponse decode raw = some aiData)
    (hirr : aiData.is_beer_related = some false) :
    doProcessPost decode post o = (Outcome.skippedIrrelevant, [Effect.aiCall]) := by
  simp [doProcessPost, hsc, hresp, hparse, hirr]

/-- Witness for C7: the fixture post with an irrelevant analysis. -/
theorem irrelevant_yields_skip_no_writeback_witness :
    doProcessPost (testDecode irrAiData) testPost cexOracles =
      (Outcome.skippedIrrelevant, [Effect.aiCall]) :=
  irrelevant_yields_skip_no_writeback (testDecode irrAiData) testPost
    cexOracles testRaw irrAiData (by decide) rfl (by decide) rfl

/-- C8: the Import/Poll Coordinator returns false immediately on a failed
trigger with zero polls; after a successful trigger it always returns
true — in particular on a `complete` status message (1 poll), on a zero
remaining-count (1 poll), and as a soft timeout after 30 failed polls
spaced by 29 one-minute waits. -/
theorem handleImport_outcomes :
    (∀ polls : Nat → PollResp, handleImport false polls = (false, 0, [])) ∧
    (∀ polls : Nat → PollResp, (handleImport true polls).1 = true) ∧
    handleImport true (fun _ => .jsonResp 200 (some "import complete")) =
      (true, 1, []) ∧
    handleImport true (fun _ => .textResp (some 0)) = (true, 1, []) ∧
    handleImport true (fun _ => .httpFail) =
      (true, 30, List.replicate 29 60000) := by
  refine ⟨fun _ => rfl, fun _ => rfl, rfl, rfl, rfl⟩

/-- C9: any payload that reaches the update call keeps every prior
metadata key outside the seven overwritten ones at its prior value. -/
theorem payload_acf_preserves_prior_keys (decode : String → Option AiData)
    (post : Post) (o : Oracles) (payload : UpdatePayload) (ok : Bool)
    (hsub : (doProcessPost decode post o).1 = Outcome.submitted payload ok)
    (k : String) (hk : k ∉ overwrittenAcfKeys) :
    payload.acf k = post.meta k := by
  obtain ⟨aiData, hacf⟩ := submitted_acf_eq decode post o payload ok hsub
  rw [hacf]
  exact updateAcf_preserves post.meta aiData o.nowJst k hk

/-- Witness for C9: the submitted fixture payload keeps `source_name`. -/
theorem payload_acf_preserves_prior_keys_witness :
    cexPayload.acf "source_name" = testPost.meta "source_name" :=
  payload_acf_preserves_prior_keys (testDecode testAiData) testPost
    cexOracles cexPayload true rfl "source_name" (by decide)

/-- C10: a post whose five source-content accessors are all absent or
empty is skipped immediately: no AI call, no image work, no update. -/
theorem empty_source_skips_post (decode : String → Option AiData)
    (post : Post) (o : Oracles)
    (h1 : post.content.bind (·.rendered) = none ∨
      post.content.bind (·.rendered) = some "")
    (h2 : post.content.bind (·.raw) = none ∨
      post.content.bind (·.raw) = some "")
    (h3 : post.meta "content_encoded" = none ∨
      post.meta "content_encoded" = some (.str ""))
    (h4 : post.titleRendered = none ∨ post.titleRendered = some "")
    (h5 : post.excerptRendered = none ∨ post.excerptRendered = some "") :
    doProcessPost decode post o = (Outcome.skippedNoContent, []) := by
  have hsc : hasSourceContent post = false := by
    unfold hasSourceContent
    rcases h1 with h1 | h1 <;> rcases h2 with h2 | h2 <;>
      rcases h3 with h3 | h3 <;> rcases h4 with h4 | h4 <;>
      rcases h5 with h5 | h5 <;>
      simp [h1, h2, h3, h4, h5, truthyStr, truthyMeta]
  simp [doProcessPost, hsc]

/-- Witness for C10: the empty fixture post is skipped with no effects. -/
theorem empty_source_skips_post_witness :
    doProcessPost (testDecode testAiData) emptyPost cexOracles =
      (Outcome.skippedNoContent, []) :=
  empty_source_skips_post (testDecode testAiData) emptyPost cexOracles
    (Or.inl rfl) (Or.inr rfl) (Or.inr rfl) (Or.inr rfl) (Or.inl rfl)

/-- C1 counterexample: URL discovered, download and upload succeed
(media id 77), the cover-attachment write fails — the result still holds
the media id, but the final status is `draft`, not the `publish` the
claim requires. -/
theorem attach_failure_publish_cex :
    (downloadAndProcessImage testPost.id cexOracles).1 =
      ⟨42, some 77, false⟩ ∧
    outcomeStatus (doProcessPost (testDecode testAiData) testPost
      cexOracles).1 = some "draft" ∧
    (some "draft" : Option String) ≠ some "publish" :=
  ⟨rfl, rfl, by decide⟩

/-- C1 (amended): when the attachment write fails after a successful
upload, `downloadAndProcessImage` still reports the uploaded media id but
its success flag is false, and the orchestrator — which keys the status on
that flag — submits the article as `draft`, not `publish`. -/
theorem attach_failure_keeps_mediaId_draft (decode : String → Option AiData)
    (post : Post) (o : Oracles) (raw : String) (aiData : AiData)
    (c : ContentObj) (url : String) (mid : Nat)
    (hsc : hasSourceContent post = true)
    (hresp : o.aiResp = some raw)
    (hparse : parseAiResponse decode raw = some aiData)
    (hrel : aiData.is_beer_related ≠ some false)
    (him : needsImage post = true)
    (hco : post.content = some c)
    (hurl : o.extractUrl = some url)
    (hdl : o.downloadOk = true)
    (hup : o.uploadId = some mid)
    (hat : o.attachOk = false) :
    (downloadAndProcessImage post.id o).1 = ⟨post.id, some mid, false⟩ ∧
    outcomeStatus (doProcessPost decode post o).1 = some "draft" := by
  have himg : (downloadAndProcessImage post.id o).1 =
      ⟨post.id, some mid, false⟩ := by
    simp [downloadAndProcessImage, hdl, hup, hat]
  refine ⟨himg, ?_⟩
  simp [doProcessPost, outcomeStatus, hsc, hresp, hparse, hrel, him, hco,
    hurl, himg]

/-- Witness for C1 (amended): the fixture scenario. -/
theorem attach_failure_keeps_mediaId_draft_witness :
    (downloadAndProcessImage testPost.id cexOracles).1 =
      ⟨testPost.id, some 77, false⟩ ∧
    outcomeStatus (doProcessPost (testDecode testAiData) testPost
      cexOracles).1 = some "draft" :=
  attach_failure_keeps_mediaId_draft (testDecode testAiData) testPost
    cexOracles testRaw testAiData ⟨some "<p>記事本文</p>", some "<p>raw</p>"⟩
    "https://example.com/img.jpg" 77 (by decide) rfl (by decide) (by decide)
    (by decide) rfl rfl rfl rfl rfl

end Curator
